import Mathlib

/-!
Shallow embedding of the `vintedreposter` program (curl parsing, Vinted API
client pagination and identity resolution, photo/price/date normalization,
the CLI exit flow, and the browser-login wait loop), together with theorems
settling the specification claims about it.

Conventions used throughout the embedding:
* Python dicts of strings are insertion-ordered association lists
  (`Dict` below); insertion overwrites in place, `setdefault` keeps the
  existing binding, exactly as in CPython.
* Python strings are `String`/`List Char`; the specific regular expressions
  of `curl_parser.py` are implemented as deterministic maximal-munch
  scanners, which coincides with Python `re` semantics for those patterns
  (their quantified character classes exclude the character that follows,
  so backtracking can never produce a different match).
* Python numbers are modelled as `ℚ` (every numeric literal involved in the
  claims is exactly representable as a double, so float rounding never
  distinguishes the compared values).
* JSON values are modelled at the types the code actually reads from them.
* `datetime` instants are rationals counting seconds since the Unix epoch
  in UTC; `datetime.fromtimestamp(_, tz=utc)` and `fromisoformat` are
  modelled concretely below.
-/

namespace VR

/-- ASCII whitespace, as matched by Python `\s` and stripped by `str.strip`. -/
def wsPy (c : Char) : Bool :=
  c = ' ' || c = '\t' || c = '\n' || c = '\r' || c = '\x0b' || c = '\x0c'

/-- ASCII decimal digit. -/
def digitPy (c : Char) : Bool := '0' ≤ c && c ≤ '9'

/-- Value of a decimal digit string (used for Python `int(...)` on digit input). -/
def digitsToNat (l : List Char) : Nat :=
  l.foldl (fun a c => a * 10 + (c.toNat - 48)) 0

/-- Python `str.isdigit` restricted to ASCII: nonempty and all digits. -/
def pyIsDigit (l : List Char) : Bool := !l.isEmpty && l.all digitPy

/-- Python `str.strip()` on a character list. -/
def pyStripL (l : List Char) : List Char :=
  ((l.dropWhile wsPy).reverse.dropWhile wsPy).reverse

/-- Python `str.strip()`. -/
def pyStrip (s : String) : String := String.mk (pyStripL s.toList)

/-- Python `str.lower()` (ASCII). -/
def lowerL (l : List Char) : List Char := l.map Char.toLower

/-- The single-quote character (written numerically). -/
def sq : Char := '\x27'

/-- The double-quote character. -/
def dq : Char := '"'

/-- Insertion-ordered string dictionary, as Python `dict[str, str]`. -/
abbrev Dict := List (String × String)

/-- Python `d.get(k)`. -/
def dictGet (d : Dict) (k : String) : Option String :=
  match d with
  | [] => none
  | (k0, v0) :: rest => if k0 = k then some v0 else dictGet rest k

/-- Python `d[k] = v`: overwrite in place, preserving insertion order. -/
def dictInsert (d : Dict) (k v : String) : Dict :=
  match d with
  | [] => [(k, v)]
  | (k0, v0) :: rest =>
    if k0 = k then (k0, v) :: rest else (k0, v0) :: dictInsert rest k v

/-- Python `d.setdefault(k, v)`: keep the existing binding if present. -/
def dictSetdefault (d : Dict) (k v : String) : Dict :=
  match d with
  | [] => [(k, v)]
  | (k0, v0) :: rest =>
    if k0 = k then (k0, v0) :: rest else (k0, v0) :: dictSetdefault rest k v

/-! ## curl_parser.py -/

/-- One anchored attempt of the pattern of
`re.sub(r"\\\s*\\\n\s*", " ", _)`: a backslash, greedy whitespace, a
backslash, a newline, greedy whitespace.  Returns the remainder after the
match. -/
def matchSub1 : List Char → Option (List Char)
  | '\\' :: r =>
    match r.dropWhile wsPy with
    | '\\' :: '\n' :: r2 => some (r2.dropWhile wsPy)
    | _ => none
  | _ => none

/-- One anchored attempt of the pattern of `re.sub(r"\s+\\\n", " ", _)`. -/
def matchSub2 : List Char → Option (List Char)
  | c :: r =>
    if wsPy c then
      match r.dropWhile wsPy with
      | '\\' :: '\n' :: r2 => some r2
      | _ => none
    else none
  | [] => none

/-- `re.sub`: replace every non-overlapping leftmost match by one space.
Fuelled with the input length (each match consumes at least one character,
so the fuel never runs out on the matchers used here). -/
def subAllF (m : List Char → Option (List Char)) : Nat → List Char → List Char
  | _, [] => []
  | 0, l => l
  | fuel + 1, c :: cs =>
    match m (c :: cs) with
    | some rest => ' ' :: subAllF m fuel rest
    | none => c :: subAllF m fuel cs

/-- Lines 16-17 of curl_parser.py: strip, then the two line-continuation
substitutions. -/
def preprocessCurl (s : String) : List Char :=
  let t1 := pyStripL s.toList
  let t2 := subAllF matchSub1 t1.length t1
  subAllF matchSub2 t2.length t2

/-- Match a literal character sequence at the head, returning the remainder. -/
def matchLit : List Char → List Char → Option (List Char)
  | [], l => some l
  | _ :: _, [] => none
  | p :: ps, c :: cs => if c = p then matchLit ps cs else none

/-- Match `\s+` at the head (at least one whitespace, maximal munch). -/
def matchWsPlus : List Char → Option (List Char)
  | c :: r => if wsPy c then some (r.dropWhile wsPy) else none
  | [] => none

/-- Match `q([^q]+)q` at the head for a quote character `q`, returning the
captured group. -/
def matchQuotedGroup (q : Char) : List Char → Option (List Char)
  | c :: r =>
    if c = q then
      let g := r.takeWhile (fun d => !(d = q))
      if g.isEmpty then none
      else
        match r.dropWhile (fun d => !(d = q)) with
        | d :: _ => if d = q then some g else none
        | [] => none
    else none
  | [] => none

/-- Match `curl\s+q([^q]+)q` at the head, returning the captured URL. -/
def matchCurlQuoted (q : Char) (l : List Char) : Option (List Char) :=
  match matchLit ['c', 'u', 'r', 'l'] l with
  | none => none
  | some r =>
    match matchWsPlus r with
    | none => none
    | some r1 => matchQuotedGroup q r1

/-- Match `curl\s+([^\s]+)` at the head, returning the captured URL. -/
def matchCurlBare (l : List Char) : Option (List Char) :=
  match matchLit ['c', 'u', 'r', 'l'] l with
  | none => none
  | some r =>
    match matchWsPlus r with
    | none => none
    | some r1 =>
      let g := r1.takeWhile (fun d => !wsPy d)
      if g.isEmpty then none else some g

/-- `re.search` for the URL pattern of curl_parser.py line 20: scan
positions left to right, trying the three alternatives in order. -/
def searchUrl : List Char → Option (List Char)
  | [] => none
  | c :: cs =>
    match matchCurlQuoted sq (c :: cs) with
    | some g => some g
    | none =>
      match matchCurlQuoted dq (c :: cs) with
      | some g => some g
      | none =>
        match matchCurlBare (c :: cs) with
        | some g => some g
        | none => searchUrl cs

/-- Match the header pattern `-H\s+q([^:]+):\s*([^q]*)q` (with `q` the single
quote) at the head; returns the two captured groups and the remainder after
the whole match. -/
def matchHdr (l : List Char) : Option ((List Char × List Char) × List Char) :=
  match matchLit ['-', 'H'] l with
  | none => none
  | some r =>
    match matchWsPlus r with
    | none => none
    | some r1 =>
      match r1 with
      | c :: r2 =>
        if c = sq then
          let k := r2.takeWhile (fun d => !(d = ':'))
          if k.isEmpty then none
          else
            match r2.dropWhile (fun d => !(d = ':')) with
            | ':' :: r3 =>
              let r4 := r3.dropWhile wsPy
              let v := r4.takeWhile (fun d => !(d = sq))
              match r4.dropWhile (fun d => !(d = sq)) with
              | d :: r5 => if d = sq then some ((k, v), r5) else none
              | [] => none
            | _ => none
        else none
      | [] => none

/-- `re.findall` for the header pattern: non-overlapping leftmost matches. -/
def findHdrsF : Nat → List Char → List (List Char × List Char)
  | _, [] => []
  | 0, _ => []
  | fuel + 1, c :: cs =>
    match matchHdr (c :: cs) with
    | some (kv, rest) => kv :: findHdrsF fuel rest
    | none => findHdrsF fuel cs

/-- Lines 27-29 of curl_parser.py: build the header dict, keys stripped and
lower-cased, values stripped, later duplicates overwriting. -/
def buildHeaders (text : List Char) : Dict :=
  (findHdrsF text.length text).foldl
    (fun d kv =>
      dictInsert d (String.mk (lowerL (pyStripL kv.1))) (String.mk (pyStripL kv.2))) []

/-- Match `-b\s+q([^q]+)q` trying the single-quote then the double-quote
alternative, at the head. -/
def matchBArg (l : List Char) : Option (List Char) :=
  match matchLit ['-', 'b'] l with
  | none => none
  | some r =>
    match matchWsPlus r with
    | none => none
    | some r1 =>
      match matchQuotedGroup sq r1 with
      | some g => some g
      | none => matchQuotedGroup dq r1

/-- `re.search` for the `-b` cookie-jar argument. -/
def searchB : List Char → Option (List Char)
  | [] => none
  | c :: cs =>
    match matchBArg (c :: cs) with
    | some g => some g
    | none => searchB cs

/-- Python `str.split(ch)` (all pieces, possibly empty). -/
def splitOnCh (ch : Char) : List Char → List (List Char)
  | [] => [[]]
  | c :: cs =>
    if c = ch then [] :: splitOnCh ch cs
    else
      match splitOnCh ch cs with
      | h :: t => (c :: h) :: t
      | [] => [[c]]

/-- Lines 37-39 / 48-51 of curl_parser.py: a `name=value` fragment; parts
without `=` are ignored, name and value are stripped. -/
def cookiePairOf (part : List Char) : Option (String × String) :=
  if part.contains '=' then
    let n := part.takeWhile (fun d => !(d = '='))
    match part.dropWhile (fun d => !(d = '=')) with
    | _ :: v => some (String.mk (pyStripL n), String.mk (pyStripL v))
    | [] => none
  else none

/-- Lines 32-39: the cookie dict built from the `-b` argument alone. -/
def bCookieDict (braw : Option (List Char)) : Dict :=
  match braw with
  | some raw =>
    (splitOnCh ';' raw).foldl
      (fun d part =>
        match cookiePairOf part with
        | some nv => dictInsert d nv.1 nv.2
        | none => d) []
  | none => []

/-- Lines 42-46: the first header whose lower-cased key is `cookie`. -/
def findCookieHeader : Dict → Option String
  | [] => none
  | (k, v) :: rest =>
    if String.mk (lowerL k.toList) = "cookie" then some v else findCookieHeader rest

/-- Lines 47-51: merge `Cookie:` header fragments into the cookie dict with
`setdefault` (the existing `-b` bindings win). -/
def addHeaderCookies (d0 : Dict) (hdrs : Dict) : Dict :=
  match findCookieHeader hdrs with
  | some hv =>
    (splitOnCh ';' hv.toList).foldl
      (fun d part =>
        match cookiePairOf part with
        | some nv => dictSetdefault d nv.1 nv.2
        | none => d) d0
  | none => d0

/-- `parse_curl` of curl_parser.py: `none` models the raised parse error
when no URL can be located.  Returns `(url, headers, cookies, user_agent)`. -/
def parse_curl (s : String) : Option (String × Dict × Dict × String) :=
  let text := preprocessCurl s
  match searchUrl text with
  | none => none
  | some u =>
    let headers := buildHeaders text
    let cookies := addHeaderCookies (bCookieDict (searchB text)) headers
    some (String.mk u, headers, cookies, (dictGet headers "user-agent").getD "")

/-! ## vinted.py : identity resolution -/

/-- A primitive Python value as found in a JWT claim. -/
inductive PVal where
  | str (s : String)
  | num (q : ℚ)
deriving DecidableEq

/-- Python truthiness of a primitive value. -/
def PVal.truthy : PVal → Bool
  | .str s => !(s == "")
  | .num q => !(q == 0)

/-- Python `str(_)` of a primitive value (numeric claims that matter to the
claims are integers, rendered as their digits). -/
def PVal.toStr : PVal → String
  | .str s => s
  | .num q => if q.den = 1 then toString q.num else toString q

/-- The `jwt.decode(..., verify_signature=False)` collaborator, modelled as a
function from the token to `payload.get('sub')`; the outer `none` models a
raised decoding exception, the value `none` a missing `sub` claim.  The
whole decoder is `none` when the `jwt` library failed to import. -/
abbrev JwtDec := Option (String → Option (Option PVal))

/-- Lines 37-47 of vinted.py: the `access_token_web` fallback of
`get_user_id`. -/
def tokenFallback (dec : JwtDec) (cookies : Dict) : Option Int :=
  match dictGet cookies "access_token_web", dec with
  | some t, some d =>
    if t = "" then none
    else
      match d t with
      | some (some sub) =>
        if sub.truthy && pyIsDigit sub.toStr.toList then
          some (digitsToNat sub.toStr.toList : Int)
        else none
      | some none => none
      | none => none
  | _, _ => none

/-- `VintedClient.get_user_id` (vinted.py lines 32-47). -/
def get_user_id (dec : JwtDec) (cookies : Dict) : Option Int :=
  match dictGet cookies "v_uid" with
  | some v =>
    if !(v == "") && pyIsDigit v.toList then some (digitsToNat v.toList : Int)
    else tokenFallback dec cookies
  | none => tokenFallback dec cookies

/-- Bool form of the `v_uid and v_uid.isdigit()` guard. -/
def vUidOk (cookies : Dict) : Bool :=
  match dictGet cookies "v_uid" with
  | some v => !(v == "") && pyIsDigit v.toList
  | none => false

/-! ## vinted.py : wardrobe pagination -/

/-- One page response: the item list plus the `pagination` value.
`pag = none` models a truthy non-dict `pagination` value (so the
`isinstance` guards fail); `pag = some (tp, cp)` models a dict holding the
optional integers `total_pages` and `current_page`. -/
structure PageResp (α : Type) where
  items : List α
  pag : Option (Option Int × Option Int)
deriving DecidableEq

/-- `pagination.get('total_pages') if isinstance(pagination, dict) else None`. -/
def tpOf {α : Type} (r : PageResp α) : Option Int :=
  match r.pag with
  | some tc => tc.1
  | none => none

/-- `pagination.get('current_page') if isinstance(pagination, dict) else page`. -/
def cpOf {α : Type} (r : PageResp α) (page : Nat) : Option Int :=
  match r.pag with
  | some tc => tc.2
  | none => some (page : Int)

/-- Outcome of `wardrobe_items_all`: a normal return, a raised `TypeError`
from comparing `None` with an integer, or exhaustion of the supplied finite
response stream while the loop still wants the next page. -/
inductive FetchResult (α : Type) where
  | ok (items : List α)
  | typeError
  | outOfPages
deriving DecidableEq

/-- Prepend already-accumulated items to a normal result. -/
def FetchResult.prepend {α : Type} (xs : List α) : FetchResult α → FetchResult α
  | .ok out => .ok (xs ++ out)
  | .typeError => .typeError
  | .outOfPages => .outOfPages

/-- The loop-body decision of `wardrobe_items_all` (vinted.py lines 79-87),
in source order: `some true` = break, `some false` = advance to the next
page, `none` = the `current_page >= total_pages` comparison raises
`TypeError` because `current_page` is `None`. -/
def stepKind {α : Type} (perPage : Nat) (maxPages : Option Nat) (page : Nat)
    (r : PageResp α) : Option Bool :=
  if (match maxPages with | some m => decide (m ≤ page) | none => false) then some true
  else
    match tpOf r with
    | none => some (r.items.isEmpty || decide (r.items.length < perPage))
    | some t =>
      match cpOf r page with
      | none => none
      | some c => some (decide (t ≤ c))

/-- The `while True` loop of `wardrobe_items_all`, fetching page `page` from
the head of the remaining response stream. -/
def wardrobePages {α : Type} (perPage : Nat) (maxPages : Option Nat) :
    Nat → List (PageResp α) → FetchResult α
  | _, [] => .outOfPages
  | page, r :: rest =>
    match stepKind perPage maxPages page r with
    | none => .typeError
    | some true => .ok r.items
    | some false => (wardrobePages perPage maxPages (page + 1) rest).prepend r.items

/-- `VintedClient.wardrobe_items_all` (vinted.py lines 69-89) over a stream
of page responses, starting at page 1. -/
def wardrobe_items_all {α : Type} (perPage : Nat) (maxPages : Option Nat)
    (responses : List (PageResp α)) : FetchResult α :=
  wardrobePages perPage maxPages 1 responses

/-- A pagination object that reports `total_pages` also reports
`current_page` (the precondition under which the loop cannot raise). -/
def wfResp {α : Type} (r : PageResp α) : Bool :=
  match r.pag with
  | some (some _, none) => false
  | _ => true

/-- The three stopping conditions of the claim, at a given 1-based page:
the cap is reached, the reported total-page count is reached or exceeded,
or (no total-page count) the page was empty or short. -/
def stopsAt {α : Type} (perPage : Nat) (maxPages : Option Nat) (page : Nat)
    (r : PageResp α) : Prop :=
  (∃ m, maxPages = some m ∧ m ≤ page) ∨
  (tpOf r = none ∧ (r.items = [] ∨ r.items.length < perPage)) ∨
  (∃ t c, tpOf r = some t ∧ cpOf r page = some c ∧ t ≤ c)

/-- Safe positional lookup in a list. -/
def nth {α : Type} : List α → Nat → Option α
  | [], _ => none
  | x :: _, 0 => some x
  | _ :: xs, n + 1 => nth xs n

/-! ## browser_reposter.py : photo URL extraction -/

/-- A photo entry as read by the code.  URL-bearing fields are optional
strings; `formats` is `none` when absent or not a dict, otherwise an
insertion-ordered list of `(key, value)` where the value is `none` when not
a dict and otherwise carries its optional `url` field. -/
structure PhotoEntry where
  full_size_url : Option String
  url : Option String
  image_url : Option String
  original_url : Option String
  original : Option String
  formats : Option (List (String × Option (Option String)))
deriving DecidableEq

/-- Python `a or b` on optional strings: keep `a` when truthy. -/
def pyOrS (a b : Option String) : Option String :=
  match a with
  | some s => if s = "" then b else some s
  | none => b

/-- Truthiness of an optional string as an `Option` filter. -/
def truthyS : Option String → Option String
  | some s => if s = "" then none else some s
  | none => none

/-- Truthiness of an optional string as a Bool. -/
def isTruthyS : Option String → Bool
  | some s => !(s == "")
  | none => false

/-- Dict lookup in a formats map. -/
def lookupFmt (key : String) : List (String × Option (Option String)) → Option (Option (Option String))
  | [] => none
  | (k, v) :: rest => if k = key then some v else lookupFmt key rest

/-- The `or` chain of browser_reposter.py line 142. -/
def topUrlChain (p : PhotoEntry) : Option String :=
  pyOrS p.full_size_url (pyOrS p.url (pyOrS p.image_url (pyOrS p.original_url p.original)))

/-- The priority list of browser_reposter.py line 147. -/
def fmtKeys : List String := ["xxl", "xl", "l", "m", "original"]

/-- The `for key in [...]` loop of browser_reposter.py lines 147-151: `u` is
overwritten by `fmts[key].get('url')` whenever the key maps to a dict, and
the loop breaks when that value is truthy. -/
def fmtLoop (fmts : List (String × Option (Option String))) :
    List String → Option String → Option String
  | [], u => u
  | key :: rest, u =>
    match lookupFmt key fmts with
    | some (some uf) => if isTruthyS uf then uf else fmtLoop fmts rest uf
    | some none => fmtLoop fmts rest u
    | none => fmtLoop fmts rest u

/-- Per-entry URL resolution of `_extract_photo_urls` (browser_reposter.py
lines 140-152); `some s` is appended iff the final `u` is a string. -/
def extractOnePhoto (p : PhotoEntry) : Option String :=
  let u := topUrlChain p
  if !isTruthyS u then
    match p.formats with
    | some fmts => fmtLoop fmts fmtKeys u
    | none => u
  else u

/-- An item as read by `_extract_photo_urls`. -/
structure RItem where
  photos : Option (List PhotoEntry)
  item_photos : Option (List PhotoEntry)
deriving DecidableEq

/-- `item.get('photos') or item.get('item_photos') or []`. -/
def photosOf (it : RItem) : List PhotoEntry :=
  match it.photos with
  | some (p :: ps) => p :: ps
  | _ =>
    match it.item_photos with
    | some (p :: ps) => p :: ps
    | _ => []

/-- `_extract_photo_urls` (browser_reposter.py lines 135-154). -/
def extract_photo_urls (it : RItem) : List String :=
  (photosOf it).filterMap extractOnePhoto

/-- Modelled from the spec: the claimed priority resolution — try the five
top-level fields in order, then, only if none is present, the first of the
`xxl, xl, l, m, original` sub-formats with a `url`. -/
def specFmtPick (fmts : List (String × Option (Option String))) :
    List String → Option String
  | [] => none
  | key :: rest =>
    match lookupFmt key fmts with
    | some (some uf) =>
      match truthyS uf with
      | some s => some s
      | none => specFmtPick fmts rest
    | some none => specFmtPick fmts rest
    | none => specFmtPick fmts rest

/-- First-of chain on options. -/
def optOr (a b : Option String) : Option String :=
  match a with
  | some s => some s
  | none => b

/-- Modelled from the spec: full claimed photo-URL priority resolution. -/
def specPhotoPriority (p : PhotoEntry) : Option String :=
  optOr (truthyS p.full_size_url) (optOr (truthyS p.url) (optOr (truthyS p.image_url)
    (optOr (truthyS p.original_url) (optOr (truthyS p.original)
      (match p.formats with
       | some f => specFmtPick f fmtKeys
       | none => none)))))

/-- The generator expression of cli.py line 301: the first insertion-ordered
formats entry that is a dict with a truthy `url`. -/
def cliFmtPick : List (String × Option (Option String)) → Option String
  | [] => none
  | (_, v) :: rest =>
    match v with
    | some uf =>
      match truthyS uf with
      | some s => some s
      | none => cliFmtPick rest
    | none => cliFmtPick rest

/-- `_extract_url` of cli.py lines 297-302 (the falsy Python results `None`
and `False` are both modelled as `none`; the caller only tests truthiness). -/
def cli_extract_url (p : PhotoEntry) : Option String :=
  pyOrS p.full_size_url (pyOrS p.url (pyOrS p.image_url
    (match p.formats with
     | some f => cliFmtPick f
     | none => none)))

/-- URL fields that are either absent or non-empty (no empty-string URLs). -/
def cleanOpt : Option String → Bool
  | some s => !(s == "")
  | none => true

/-- A photo entry with no empty-string URL values anywhere. -/
def cleanPhoto (p : PhotoEntry) : Bool :=
  cleanOpt p.full_size_url && cleanOpt p.url && cleanOpt p.image_url &&
  cleanOpt p.original_url && cleanOpt p.original &&
  (match p.formats with
   | some f => f.all (fun kv => match kv.2 with | some uf => cleanOpt uf | none => true)
   | none => true)

/-! ## price normalization -/

/-- The `price` field as read by the code: a dict with `amount` and
`currency_code`, a plain number, or a string (string `price` values are
ignored by both normalizers under scrutiny). -/
inductive PPrice where
  | pdict (amount : Option PVal) (currency_code : Option String)
  | pnum (q : ℚ)
  | pstr (s : String)
deriving DecidableEq

/-- The merged source record as read by the price normalizers. -/
structure PriceSrc where
  price_numeric : Option PVal
  price : Option PPrice
deriving DecidableEq

/-- Python `float(s)` on an already-stripped character list: optional sign,
decimal digits with at most one point, optional exponent.  (Underscored
literals and `inf`/`nan`, which no claim involves, are not modelled.) -/
def pyFloatCore (l : List Char) : Option ℚ :=
  let sl : ℚ × List Char :=
    match l with
    | '+' :: r => (1, r)
    | '-' :: r => (-1, r)
    | _ => (1, l)
  let ip := sl.2.takeWhile digitPy
  let l2 := sl.2.dropWhile digitPy
  let fl : Option (List Char) × List Char :=
    match l2 with
    | '.' :: r => (some (r.takeWhile digitPy), r.dropWhile digitPy)
    | _ => (none, l2)
  if ip.isEmpty && (match fl.1 with | some f => f.isEmpty | none => true) then none
  else
    let mant : ℚ := (digitsToNat ip : ℚ) +
      (match fl.1 with
       | some f => (digitsToNat f : ℚ) / ((10 : ℚ) ^ f.length)
       | none => 0)
    match fl.2 with
    | [] => some (sl.1 * mant)
    | e :: r =>
      if e = 'e' || e = 'E' then
        let es : Int × List Char :=
          match r with
          | '+' :: r2 => (1, r2)
          | '-' :: r2 => (-1, r2)
          | _ => (1, r)
        let ed := es.2.takeWhile digitPy
        let r2 := es.2.dropWhile digitPy
        if ed.isEmpty || !r2.isEmpty then none
        else some (sl.1 * mant * (10 : ℚ) ^ (es.1 * (digitsToNat ed : Int)))
      else none

/-- Python `float(s)`: `none` models the raised `ValueError`. -/
def pyFloat (s : String) : Option ℚ := pyFloatCore (pyStripL s.toList)

/-- Python `s.replace(',', '.')`. -/
def replaceCommaDot (s : String) : String :=
  String.mk (s.toList.map (fun c => if c = ',' then '.' else c))

/-- Lines 160-168 of browser_reposter.py (`collect_item_data`): the raw
amount before string conversion. -/
def collectAmount (src : PriceSrc) : Option PVal :=
  match src.price_numeric with
  | some a => some a
  | none =>
    match src.price with
    | some (.pdict amount _) => amount
    | some (.pnum q) => some (.num q)
    | _ => none

/-- Lines 169-179 of browser_reposter.py: normalize a string amount by
comma-to-period replacement and float conversion; unparsable and non-numeric
amounts give an absent price. -/
def collectPrice (src : PriceSrc) : Option ℚ :=
  match collectAmount src with
  | some (.str s) => pyFloat (replaceCommaDot s)
  | some (.num q) => some q
  | none => none

/-- Lines 269-279 of cli.py: the payload price normalization.  A string
`price_numeric` is kept as the string itself; a string `amount` inside a
`price` dict goes through plain `float(...)` with no comma replacement,
`none` on `ValueError`. -/
def cliPriceVal (src : PriceSrc) : Option PVal :=
  match src.price_numeric with
  | some v => some v
  | none =>
    match src.price with
    | some (.pdict amount _) =>
      match amount with
      | none => none
      | some (.num q) => some (.num q)
      | some (.str s) => (pyFloat s).map PVal.num
    | some (.pnum q) => some (.num q)
    | _ => none

/-! ## cli.py : creation-date parsing and sorting -/

/-- An item as read by `_parse_created_at`: the numeric `created_at_ts`
field, the `created_at` string, the nested `item.created_at` string, and the
list of numeric `high_resolution.timestamp` values of the photos
(an entry is `none` when the photo is not a dict or has no numeric
timestamp; the code skips both identically). -/
structure ItemRec where
  created_at_ts : Option ℚ
  created_at : Option String
  item_created_at : Option String
  photos : Option (List (Option ℚ))
deriving DecidableEq

/-- Smallest instant representable by `datetime` (year 1). -/
def minFts : ℚ := -62135596800

/-- Largest instant representable by `datetime` (`datetime.max` in UTC). -/
def maxFts : ℚ := 253402300799 + 999999 / 1000000

/-- `datetime.fromtimestamp(sec, tz=utc)`: the instant itself, `none`
modelling the raised error outside the representable range. -/
def fromtimestampUtc (sec : ℚ) : Option ℚ :=
  if minFts ≤ sec ∧ sec ≤ maxFts then some sec else none

/-- Lines 39-46 of cli.py: the numeric-timestamp branch, with the
seconds/milliseconds magnitude heuristic. -/
def tsStep (it : ItemRec) : Option ℚ :=
  match it.created_at_ts with
  | some ts => fromtimestampUtc (if 10000000000 < ts then ts / 1000 else ts)
  | none => none

/-- Grab exactly `n` decimal digits. -/
def grabDigits : Nat → List Char → Option (List Char × List Char)
  | 0, l => some ([], l)
  | n + 1, c :: cs =>
    if digitPy c then
      match grabDigits n cs with
      | some (ds, rest) => some (c :: ds, rest)
      | none => none
    else none
  | _ + 1, [] => none

/-- Gregorian leap year. -/
def isLeap (y : Nat) : Bool := y % 4 == 0 && (y % 100 != 0 || y % 400 == 0)

/-- Length of a month. -/
def daysInMonth (y mo : Nat) : Nat :=
  if mo = 2 then (if isLeap y then 29 else 28)
  else if mo = 4 || mo = 6 || mo = 9 || mo = 11 then 30
  else 31

/-- Days between a civil date (year ≥ 1) and 1970-01-01 (standard civil-day
computation). -/
def daysFromCivil (y mo d : Nat) : Int :=
  let y1 := if mo ≤ 2 then y - 1 else y
  let era := y1 / 400
  let yoe := y1 % 400
  let mp := (mo + 9) % 12
  let doy := (153 * mp + 2) / 5 + (d - 1)
  let doe := yoe * 365 + yoe / 4 - yoe / 100 + doy
  (era * 146097 + doe : Int) - 719468

/-- A parsed `datetime`: wall-clock seconds since epoch plus the optional
UTC offset in seconds (`none` = naive). -/
structure PyDT where
  naiveSec : ℚ
  off : Option ℚ
deriving DecidableEq

/-- Optional fractional-seconds part `.dddddd`. -/
def parseFrac (l : List Char) : Option (ℚ × List Char) :=
  match l with
  | '.' :: r =>
    let ds := r.takeWhile digitPy
    if ds.isEmpty || 6 < ds.length then none
    else some ((digitsToNat ds : ℚ) / ((10 : ℚ) ^ ds.length), r.dropWhile digitPy)
  | _ => some (0, l)

/-- Time-of-day part `HH[:MM[:SS[.ffffff]]]`, in seconds. -/
def parseTimePart (l : List Char) : Option (ℚ × List Char) :=
  match grabDigits 2 l with
  | none => none
  | some (hds, r1) =>
    let h := digitsToNat hds
    if 23 < h then none
    else
      match r1 with
      | ':' :: r2 =>
        match grabDigits 2 r2 with
        | none => none
        | some (mds, r3) =>
          let mi := digitsToNat mds
          if 59 < mi then none
          else
            match r3 with
            | ':' :: r4 =>
              match grabDigits 2 r4 with
              | none => none
              | some (sds, r5) =>
                let sec := digitsToNat sds
                if 59 < sec then none
                else
                  match parseFrac r5 with
                  | some fr => some ((h * 3600 + mi * 60 + sec : ℚ) + fr.1, fr.2)
                  | none => none
            | _ => some ((h * 3600 + mi * 60 : ℚ), r3)
      | _ => some ((h * 3600 : ℚ), r1)

/-- Trailing UTC-offset part `±HH[:MM[:SS]]`; `some none` = naive. -/
def parseOffset (l : List Char) : Option (Option ℚ) :=
  match l with
  | [] => some none
  | c :: r =>
    if c = '+' || c = '-' then
      match parseTimePart r with
      | some (osec, rest) =>
        if rest.isEmpty then some (some (if c = '-' then -osec else osec)) else none
      | none => none
    else none

/-- `datetime.fromisoformat`: `YYYY-MM-DD`, optionally a single separator
character followed by a time of day and an explicit offset.  `none` models
the raised `ValueError`. -/
def fromiso (l : List Char) : Option PyDT :=
  match grabDigits 4 l with
  | none => none
  | some (yds, r1) =>
    match r1 with
    | '-' :: r2 =>
      match grabDigits 2 r2 with
      | none => none
      | some (mods, r3) =>
        match r3 with
        | '-' :: r4 =>
          match grabDigits 2 r4 with
          | none => none
          | some (dds, r5) =>
            let y := digitsToNat yds
            let mo := digitsToNat mods
            let d := digitsToNat dds
            if y = 0 || mo = 0 || 12 < mo || d = 0 || daysInMonth y mo < d then none
            else
              let dateSec : ℚ := (daysFromCivil y mo d : ℚ) * 86400
              match r5 with
              | [] => some ⟨dateSec, none⟩
              | _ :: r6 =>
                match parseTimePart r6 with
                | none => none
                | some (tsec, r7) =>
                  match parseOffset r7 with
                  | some off => some ⟨dateSec + tsec, off⟩
                  | none => none
        | _ => none
    | _ => none

/-- Python `a or b` for the two `created_at` sources (line 48 of cli.py). -/
def pyOrStr (a b : Option String) : Option String :=
  match a with
  | some s => if s = "" then b else some s
  | none => b

/-- Python `s.replace('Z', '+00:00')` (every occurrence). -/
def pyReplaceAllZ : List Char → List Char
  | [] => []
  | c :: cs =>
    if c = 'Z' then '+' :: '0' :: '0' :: ':' :: '0' :: '0' :: pyReplaceAllZ cs
    else c :: pyReplaceAllZ cs

/-- Lines 48-62 of cli.py: the ISO-string branch of `_parse_created_at`. -/
def isoStep (it : ItemRec) : Option ℚ :=
  match pyOrStr it.created_at it.item_created_at with
  | some s0 =>
    if s0 = "" then none
    else
      let s := pyStripL s0.toList
      let s1 := if s.getLast? = some 'Z' then pyReplaceAllZ s else s
      match fromiso s1 with
      | some dt => some (dt.naiveSec - dt.off.getD 0)
      | none => none
  | none => none

/-- Lines 66-74 of cli.py: earliest numeric photo timestamp. -/
def minPhotoTs (ps : List (Option ℚ)) : Option ℚ :=
  ps.foldl
    (fun best p =>
      match p with
      | some q =>
        match best with
        | some b => if q < b then some q else some b
        | none => some q
      | none => best) none

/-- Lines 63-79 of cli.py: the photo-metadata fallback. -/
def photoStep (it : ItemRec) : Option ℚ :=
  match it.photos with
  | some (p :: ps) =>
    match minPhotoTs (p :: ps) with
    | some b => fromtimestampUtc b
    | none => none
  | _ => none

/-- `_parse_created_at` (cli.py lines 36-80): resulting UTC instant, or
`none` when the creation date is unknown. -/
def parse_created_at (it : ItemRec) : Option ℚ :=
  match tsStep it with
  | some v => some v
  | none =>
    match isoStep it with
    | some v => some v
    | none => photoStep it

/-- The instant of `datetime.max.replace(tzinfo=timezone.utc)`. -/
def maxDT : ℚ := 253402300799 + 999999 / 1000000

/-- `_sort_key` of cli.py lines 206-208: `(0, date)` for a known date,
`(1, datetime.max)` for an unknown one. -/
def sortKey (it : ItemRec) : Nat × ℚ :=
  match parse_created_at it with
  | some dt => (0, dt)
  | none => (1, maxDT)

/-- Lexicographic tuple comparison used by Python on sort keys. -/
def keyLeB (a b : Nat × ℚ) : Bool :=
  decide (a.1 < b.1) || (decide (a.1 = b.1) && decide (a.2 ≤ b.2))

/-- The total preorder that `enriched.sort(key=_sort_key)` sorts by. -/
def itemLe (a b : ItemRec) : Prop := keyLeB (sortKey a) (sortKey b) = true

instance : DecidableRel itemLe := fun a b =>
  decidable_of_iff (keyLeB (sortKey a) (sortKey b) = true) Iff.rfl

/-- Python `list.sort` is a stable sort; `List.insertionSort` is the stable
sort by the same preorder, hence extensionally the same function. -/
def pySortItems (its : List ItemRec) : List ItemRec :=
  List.insertionSort itemLe its

/-! ## cli.py : exit codes -/

/-- Python `int(s)` on an already-stripped string: optional sign and digits;
`none` models the raised `ValueError`. -/
def pyIntOf (s : String) : Option Int :=
  match s.toList with
  | '+' :: ds => if !ds.isEmpty && ds.all digitPy then some (digitsToNat ds : Int) else none
  | '-' :: ds => if !ds.isEmpty && ds.all digitPy then some (-(digitsToNat ds : Int)) else none
  | ds => if !ds.isEmpty && ds.all digitPy then some (digitsToNat ds : Int) else none

/-- The abstract outcomes of the steps of `main` (cli.py lines 157-401) that
determine the process exit code.  Per-item enrichment, photo downloads and
uploads, and deletion of the original are all wrapped in `try/except` in the
source and cannot influence the exit code, so they are not part of the
state.  `browserOk` is the truthiness of `res.get("ok")` on the browser
path; a raised browser exception is the same fallthrough as a falsy result. -/
structure RunEnv (α : Type) where
  userId : Option Nat
  items : List α
  selection : String
  confirmRepost : Bool
  browserFlag : Bool
  browserOk : Bool
  csrf : Option String
  createOk : Bool

/-- The exit code of `main`: `sys.exit(1)` on falsy identity, `sys.exit(0)`
on no items, plain returns (exit 0) on blank/invalid/out-of-range selection,
declined confirmation or a confirmed browser save, `sys.exit(1)` on a falsy
CSRF token at the write gate, `sys.exit(2)` when `create_item` raises, and 0
on successful creation. -/
def mainExit {α : Type} (env : RunEnv α) : Nat :=
  match env.userId with
  | none => 1
  | some uid =>
    if uid = 0 then 1
    else if env.items.isEmpty then 0
    else if pyStrip env.selection = "" then 0
    else
      match pyIntOf (pyStrip env.selection) with
      | none => 0
      | some idx =>
        if 1 ≤ idx ∧ idx ≤ (env.items.length : Int) then
          if env.confirmRepost then
            if env.browserFlag && env.browserOk then 0
            else
              match truthyS env.csrf with
              | none => 1
              | some _ => if env.createOk then 0 else 2
          else 0
        else 0

/-- Identity resolution produced no usable (truthy) user id. -/
def idUnresolved {α : Type} (env : RunEnv α) : Prop :=
  env.userId = none ∨ env.userId = some 0

/-- The run reaches the CSRF write gate: identity resolved, items found, a
valid in-range selection, the repost confirmed, and no confirmed
browser-path save. -/
def reachesWriteGate {α : Type} (env : RunEnv α) : Prop :=
  (∃ u, env.userId = some u ∧ u ≠ 0) ∧
  env.items ≠ [] ∧
  pyStrip env.selection ≠ "" ∧
  (∃ i, pyIntOf (pyStrip env.selection) = some i ∧ 1 ≤ i ∧ i ≤ (env.items.length : Int)) ∧
  env.confirmRepost = true ∧
  (env.browserFlag && env.browserOk) = false

/-- The run reaches the final `create_item` call. -/
def reachesCreate {α : Type} (env : RunEnv α) : Prop :=
  reachesWriteGate env ∧ truthyS env.csrf ≠ none

/-- The end-to-end curl text of the claimed scenario (single quotes written
as `\x27`). -/
def c3CurlText : String :=
  "curl \x27https://x/items/new\x27 -H \x27cookie: v_uid=42\x27 -b \x27v_uid=42; access_token_web=abc\x27"

/-! ## browser_login.py : the login wait loop -/

/-- One polled observation of the browser: the current URL and the raw
`get_cookies()` entries (name and value may each be missing). -/
structure LoginObs where
  current_url : String
  cookieList : List (Option String × Option String)

/-- `_collect_cookie_dict` (browser_login.py lines 29-40): keep entries with
a truthy name and a non-`None` value, later duplicates overwriting. -/
def collectCookies (l : List (Option String × Option String)) : Dict :=
  l.foldl
    (fun d e =>
      match e with
      | (some n, some v) => if n = "" then d else dictInsert d n v
      | _ => d) []

/-- `'v_uid' in cookies or 'access_token_web' in cookies`. -/
def loggedIn (d : Dict) : Bool :=
  (dictGet d "v_uid").isSome || (dictGet d "access_token_web").isSome

/-- `re.match(r'^https://www\.vinted\.fr/member/\d+', cur)`: the URL starts
with the member prefix followed by at least one digit. -/
def onProfile (url : String) : Bool :=
  let pre := "https://www.vinted.fr/member/".toList
  let l := url.toList
  pre.isPrefixOf l &&
    (match l.drop pre.length with
     | c :: _ => digitPy c
     | [] => false)

/-- The loop-body success test of `_wait_for_login_and_cookies`. -/
def loginSuccessAt (obs : Nat → LoginObs) (k : Nat) : Bool :=
  loggedIn (collectCookies (obs k).cookieList) && onProfile (obs k).current_url

/-- The polling loop of `_wait_for_login_and_cookies` (browser_login.py
lines 43-64) under the idealized 1-second tick: with `remaining` ticks left
before the deadline, poll observation `k`; on success return the collected
cookies, on deadline expiry fall through to a final collection — the same
return type, with no error signal. -/
def waitLoop (obs : Nat → LoginObs) : Nat → Nat → Dict
  | 0, k => collectCookies (obs k).cookieList
  | r + 1, k =>
    if loginSuccessAt obs k then collectCookies (obs k).cookieList
    else waitLoop obs r (k + 1)

/-- `_wait_for_login_and_cookies` with a positive timeout of `timeout`
whole seconds (a non-positive timeout means wait forever and is outside
this finite model). -/
def waitForLogin (timeout : Nat) (obs : Nat → LoginObs) : Dict :=
  waitLoop obs timeout 0

end VR

namespace VR

/-! ## Helper lemmas -/

theorem nth_lt {α : Type} : ∀ (l : List α) (j : Nat), j < l.length → ∃ x, nth l j = some x := by
  intro l
  induction l with
  | nil => intro j hj; simp at hj
  | cons x xs ih =>
    intro j hj
    cases j with
    | zero => exact ⟨x, rfl⟩
    | succ j0 => exact ih j0 (by simpa using hj)

theorem nth_mem {α : Type} : ∀ (l : List α) (j : Nat) (x : α), nth l j = some x → x ∈ l := by
  intro l
  induction l with
  | nil => intro j x h; simp [nth] at h
  | cons y ys ih =>
    intro j x h
    cases j with
    | zero => simp [nth] at h; simp [h]
    | succ j0 => exact List.mem_cons_of_mem y (ih j0 x h)

/-! ## C10 : the login wait loop returns the current cookies on timeout -/

/-- C10: for every positive timeout, if no polled state before the deadline
satisfies the success condition (a `v_uid` or `access_token_web` cookie
present and a numeric member-profile URL), `_wait_for_login_and_cookies`
does not raise and does not report failure: it returns the cookie map the
browser currently holds — the same type as a successful capture — and on an
empty browser state that map is empty. -/
theorem claim10_login_timeout :
    (∀ (timeout : Nat) (obs : Nat → LoginObs), 0 < timeout →
      (∀ k, k < timeout → loginSuccessAt obs k = false) →
      waitForLogin timeout obs = collectCookies (obs timeout).cookieList) ∧
    (∀ timeout : Nat, 0 < timeout →
      waitForLogin timeout (fun _ => ⟨"", []⟩) = []) := by
  have main : ∀ (obs : Nat → LoginObs) (r k : Nat),
      (∀ j, j < r → loginSuccessAt obs (k + j) = false) →
      waitLoop obs r k = collectCookies (obs (k + r)).cookieList := by
    intro obs r
    induction r with
    | zero => intro k _; simp [waitLoop]
    | succ n ih =>
      intro k hk
      have h0 : loginSuccessAt obs k = false := by
        have := hk 0 (Nat.succ_pos n)
        simpa using this
      rw [waitLoop, h0]
      simp only [Bool.false_eq_true, if_false]
      have hrec := ih (k + 1) (fun j hj => by
        have := hk (j + 1) (by omega)
        have harith : k + (j + 1) = k + 1 + j := by omega
        rw [harith] at this
        exact this)
      rw [hrec]
      have : k + 1 + n = k + (n + 1) := by omega
      rw [this]
  constructor
  · intro timeout obs _ h
    have := main obs timeout 0 (fun j hj => by simpa using h j hj)
    simpa [waitForLogin] using this
  · intro timeout ht
    have := main (fun _ => ⟨"", []⟩) timeout 0 (fun j _ => by rfl)
    simpa [waitForLogin, collectCookies] using this

/-- Witness for C10 at a concrete one-second timeout and a browser holding
one unrelated cookie: the loop times out and returns that cookie map. -/
theorem claim10_witness :
    waitForLogin 1 (fun _ => ⟨"", [(some "a", some "b")]⟩) = [("a", "b")] := by
  have h := claim10_login_timeout.1 1 (fun _ => ⟨"", [(some "a", some "b")]⟩)
    (by decide) (fun k _ => by rfl)
  rw [h]
  rfl

/-! ## C9 : missing current_page with reported total_pages raises TypeError -/

theorem stepKind_ne_none {α : Type} (pp : Nat) (mp : Option Nat) (page : Nat)
    (r : PageResp α) (h : wfResp r = true) : stepKind pp mp page r ≠ none := by
  rcases r with ⟨items, pag⟩
  rcases pag with _ | ⟨tp, cp⟩
  · unfold stepKind tpOf
    split <;> simp
  · rcases tp with _ | t
    · unfold stepKind tpOf
      split <;> simp
    · rcases cp with _ | c
      · simp [wfResp] at h
      · unfold stepKind tpOf cpOf
        split <;> simp

/-- C9: there is a reachable page response on which `wardrobe_items_all`
does not terminate normally.  First part: with no max-page cap, after any
run of pages that report consistent `total_pages`/`current_page` and do not
stop the loop, a page whose pagination reports `total_pages` but no
`current_page` makes the termination test compare `None` with an integer
and raise `TypeError`.  Second part: the function never raises when every
pagination object reporting `total_pages` also reports `current_page`. -/
theorem claim9_pagination_type_error :
    (∀ (α : Type) (pp : Nat) (pre rest : List (PageResp α)) (bad : PageResp α) (t : Int),
      bad.pag = some (some t, none) →
      (∀ r ∈ pre, ∃ u c, r.pag = some (some u, some c) ∧ c < u) →
      wardrobe_items_all pp none (pre ++ bad :: rest) = FetchResult.typeError) ∧
    (∀ (α : Type) (pp : Nat) (mp : Option Nat) (rs : List (PageResp α)),
      (∀ r ∈ rs, wfResp r = true) →
      wardrobe_items_all pp mp rs ≠ FetchResult.typeError) := by
  constructor
  · intro α pp pre rest bad t hbad hpre
    have main : ∀ (pre2 : List (PageResp α)) (page : Nat),
        (∀ r ∈ pre2, ∃ u c, r.pag = some (some u, some c) ∧ c < u) →
        wardrobePages pp none page (pre2 ++ bad :: rest) = FetchResult.typeError := by
      intro pre2
      induction pre2 with
      | nil =>
        intro page _
        rw [List.nil_append, wardrobePages]
        have : stepKind pp none page bad = none := by
          unfold stepKind tpOf cpOf
          rw [hbad]
          simp
        rw [this]
      | cons r pre3 ih =>
        intro page hr
        obtain ⟨u, c, hpag, hcu⟩ := hr r (List.mem_cons_self r pre3)
        rw [List.cons_append, wardrobePages]
        have hstep : stepKind pp none page r = some false := by
          unfold stepKind tpOf cpOf
          rw [hpag]
          simp [not_le.mpr hcu]
        rw [hstep, ih (page + 1) (fun x hx => hr x (List.mem_cons_of_mem r hx))]
        rfl
    exact main pre 1 hpre
  · intro α pp mp rs hwf
    have main : ∀ (rs2 : List (PageResp α)) (page : Nat),
        (∀ r ∈ rs2, wfResp r = true) →
        wardrobePages pp mp page rs2 ≠ FetchResult.typeError := by
      intro rs2
      induction rs2 with
      | nil => intro page _; simp [wardrobePages]
      | cons r rest2 ih =>
        intro page hr
        rw [wardrobePages]
        cases hs : stepKind pp mp page r with
        | none =>
          exact absurd hs (stepKind_ne_none pp mp page r (hr r (List.mem_cons_self r rest2)))
        | some b =>
          cases b with
          | true => simp
          | false =>
            have hrec := ih (page + 1) (fun x hx => hr x (List.mem_cons_of_mem r hx))
            cases hres : wardrobePages pp mp (page + 1) rest2 with
            | ok out => simp [FetchResult.prepend]
            | typeError => exact absurd hres hrec
            | outOfPages => simp [FetchResult.prepend]
    exact main rs 1 hwf

/-- Witness for C9: a single page whose pagination is
`{"total_pages": 5}` with no `current_page` raises `TypeError` at once. -/
theorem claim9_witness :
    wardrobe_items_all 20 none [(⟨[], some (some 5, none)⟩ : PageResp Nat)] =
      FetchResult.typeError := by
  have h := claim9_pagination_type_error.1 Nat 20 [] []
    (⟨[], some (some 5, none)⟩ : PageResp Nat) 5 rfl (by simp)
  simpa using h

end VR

namespace VR

/-! ## C3 : identity resolution -/

theorem get_user_id_of_vUid_not_ok (dec : JwtDec) (cookies : Dict)
    (h : vUidOk cookies = false) :
    get_user_id dec cookies = tokenFallback dec cookies := by
  unfold get_user_id
  unfold vUidOk at h
  cases hv : dictGet cookies "v_uid" with
  | none => simp [hv]
  | some v =>
    rw [hv] at h
    simp only at h
    simp [hv]
    intro h1 h2
    simp [String.toList, h1, h2] at h

/-- C3: identity resolution returns the integer value of the `v_uid` cookie
when it is a nonempty digit string; otherwise it decodes the
`access_token_web` token without verification and returns the numeric `sub`
claim; otherwise it returns `none`.  The concrete curl scenario parses to
the claimed URL and cookie map, over which identity resolution returns 42
for every decoder. -/
theorem claim3_identity_resolution :
    (∀ (dec : JwtDec) (cookies : Dict) (v : String),
      dictGet cookies "v_uid" = some v → v ≠ "" → pyIsDigit v.toList = true →
      get_user_id dec cookies = some (digitsToNat v.toList : Int)) ∧
    (∀ (d : String → Option (Option PVal)) (cookies : Dict) (t : String) (sub : PVal),
      vUidOk cookies = false →
      dictGet cookies "access_token_web" = some t → t ≠ "" →
      d t = some (some sub) → sub.truthy = true → pyIsDigit sub.toStr.toList = true →
      get_user_id (some d) cookies = some (digitsToNat sub.toStr.toList : Int)) ∧
    (∀ (dec : JwtDec) (cookies : Dict),
      vUidOk cookies = false → tokenFallback dec cookies = none →
      get_user_id dec cookies = none) ∧
    (parse_curl c3CurlText =
      some ("https://x/items/new", [("cookie", "v_uid=42")],
        [("v_uid", "42"), ("access_token_web", "abc")], "") ∧
     ∀ dec : JwtDec,
       get_user_id dec [("v_uid", "42"), ("access_token_web", "abc")] = some 42) := by
  refine ⟨?_, ?_, ?_, ?_, ?_⟩
  · intro dec cookies v hv hne hd
    simp only [String.toList] at hd
    simp [get_user_id, String.toList, hv, hne, hd]
  · intro d cookies t sub hvu ht htne hdt htr hdig
    simp only [String.toList] at hdig
    rw [get_user_id_of_vUid_not_ok (some d) cookies hvu]
    simp [tokenFallback, String.toList, ht, htne, hdt, htr, hdig]
  · intro dec cookies hvu htf
    rw [get_user_id_of_vUid_not_ok dec cookies hvu, htf]
  · decide
  · intro dec
    rfl

/-- Witness for C3: the `v_uid` digit path at a concrete cookie jar, with
the decoder absent. -/
theorem claim3_witness :
    get_user_id none [("v_uid", "7")] = some 7 :=
  claim3_identity_resolution.1 none [("v_uid", "7")] "7" rfl (by decide) (by decide)

end VR

namespace VR

/-! ## C2 : -b cookies win over Cookie-header cookies -/

theorem dictGet_setdefault (d : Dict) (k v n : String) :
    dictGet (dictSetdefault d k v) n =
      if k = n then some ((dictGet d n).getD v) else dictGet d n := by
  induction d with
  | nil =>
    by_cases h : k = n <;> simp [dictSetdefault, dictGet, h]
  | cons kv0 rest ih =>
    obtain ⟨k0, v0⟩ := kv0
    by_cases h0 : k0 = k
    · subst h0
      by_cases h : k0 = n <;> simp [dictSetdefault, dictGet, h]
    · by_cases h : k0 = n
      · subst h
        have : ¬ k = k0 := fun hh => h0 hh.symm
        simp [dictSetdefault, dictGet, h0, this]
      · simp [dictSetdefault, dictGet, h0, h, ih]

/-- The `setdefault` loop over split cookie fragments: a name keeps its
existing binding, otherwise receives the first fragment that defines it. -/
theorem dictGet_foldl_setdefault (parts : List (List Char)) :
    ∀ (d : Dict) (n : String),
      dictGet (parts.foldl
        (fun d part =>
          match cookiePairOf part with
          | some nv => dictSetdefault d nv.1 nv.2
          | none => d) d) n =
      match dictGet d n with
      | some w => some w
      | none => List.lookup n (parts.filterMap cookiePairOf) := by
  induction parts with
  | nil =>
    intro d n
    cases h : dictGet d n <;> simp [h]
  | cons part rest ih =>
    intro d n
    cases hp : cookiePairOf part with
    | none =>
      simp only [List.foldl_cons, hp]
      rw [ih d n]
      simp [List.filterMap_cons, hp]
    | some nv =>
      obtain ⟨a, b⟩ := nv
      simp only [List.foldl_cons, hp]
      rw [ih (dictSetdefault d a b) n]
      rw [dictGet_setdefault d a b n]
      by_cases hab : a = n
      · subst hab
        cases hd : dictGet d a with
        | some w => simp [hd, List.filterMap_cons, hp, List.lookup]
        | none => simp [hd, List.filterMap_cons, hp, List.lookup]
      · have hna : ¬ n = a := fun hh => hab hh.symm
        have hba : (n == a) = false := by simp [hna]
        simp [hab, List.filterMap_cons, hp, List.lookup, hba]

/-- C2: whenever a curl text has both a `-b` cookie-jar argument and a
`Cookie:` header, every name the `-b` jar defines is bound in the parsed
cookie map to its `-b` value, and every name the jar does not define gets
the first value the `Cookie:` header gives it (so header-only names are
still included). -/
theorem claim2_cookie_merge :
    ∀ (t url : String) (hdrs cookies : Dict) (ua : String) (braw : List Char) (hv : String),
      parse_curl t = some (url, hdrs, cookies, ua) →
      searchB (preprocessCurl t) = some braw →
      findCookieHeader hdrs = some hv →
      (∀ n w, dictGet (bCookieDict (some braw)) n = some w → dictGet cookies n = some w) ∧
      (∀ n, dictGet (bCookieDict (some braw)) n = none →
        dictGet cookies n =
          List.lookup n ((splitOnCh ';' hv.toList).filterMap cookiePairOf)) := by
  intro t url hdrs cookies ua braw hv h1 h2 h3
  cases hU : searchUrl (preprocessCurl t) with
  | none => simp [parse_curl, hU] at h1
  | some u =>
    simp only [parse_curl, hU, Option.some.injEq, Prod.mk.injEq] at h1
    obtain ⟨-, hhdrs, hcook, -⟩ := h1
    subst hhdrs
    rw [h2] at hcook
    rw [addHeaderCookies, h3] at hcook
    constructor
    · intro n w hw
      rw [← hcook, dictGet_foldl_setdefault, hw]
    · intro n hn
      rw [← hcook, dictGet_foldl_setdefault, hn]

/-- Witness for C2 on a concrete curl text in which the name `a` is defined
by both sources and the name `b` only by the header: the parsed map binds
`a` to the `-b` value 9 and keeps `b` from the header. -/
theorem claim2_witness :
    dictGet (bCookieDict (some ("a=9".toList))) "a" = some "9" ∧
    dictGet
      [("a", "9"), ("b", "2")] "a" = some "9" ∧
    (∀ n w,
      dictGet (bCookieDict (some ("a=9".toList))) n = some w →
      dictGet [("a", "9"), ("b", "2")] n = some w) ∧
    (∀ n,
      dictGet (bCookieDict (some ("a=9".toList))) n = none →
      dictGet [("a", "9"), ("b", "2")] n =
        List.lookup n ((splitOnCh ';' ("a=1; b=2").toList).filterMap cookiePairOf)) := by
  have h := claim2_cookie_merge
    "curl \x27https://x\x27 -H \x27cookie: a=1; b=2\x27 -b \x27a=9\x27"
    "https://x" [("cookie", "a=1; b=2")] [("a", "9"), ("b", "2")] ""
    ("a=9".toList) "a=1; b=2" (by decide) (by decide) (by decide)
  exact ⟨by decide, by decide, h.1, h.2⟩

end VR

namespace VR

/-! ## C1 : wardrobe_items_all accumulates pages and stops exactly per policy -/

theorem stepKind_true_iff {α : Type} (pp : Nat) (mp : Option Nat) (page : Nat)
    (r : PageResp α) (h : wfResp r = true) :
    stepKind pp mp page r = some true ↔ stopsAt pp mp page r := by
  rcases r with ⟨items, pag⟩
  rcases pag with _ | ⟨tp, cp⟩
  · unfold stepKind stopsAt tpOf cpOf
    cases mp with
    | none => simp [List.isEmpty_iff]
    | some m =>
      by_cases hm : m ≤ page
      · simp [hm]
      · simp [hm, List.isEmpty_iff]
  · rcases tp with _ | t
    · unfold stepKind stopsAt tpOf cpOf
      cases mp with
      | none => simp [List.isEmpty_iff]
      | some m =>
        by_cases hm : m ≤ page
        · simp [hm]
        · simp [hm, List.isEmpty_iff]
    · rcases cp with _ | c
      · simp [wfResp] at h
      · unfold stepKind stopsAt tpOf cpOf
        cases mp with
        | none => simp
        | some m =>
          by_cases hm : m ≤ page
          · simp [hm]
          · simp [hm]

theorem stepKind_some {α : Type} (pp : Nat) (mp : Option Nat) (page : Nat)
    (r : PageResp α) (h : wfResp r = true) :
    ∃ b, stepKind pp mp page r = some b := by
  cases hs : stepKind pp mp page r with
  | none => exact absurd hs (stepKind_ne_none pp mp page r h)
  | some b => exact ⟨b, rfl⟩

theorem stepKind_false_iff {α : Type} (pp : Nat) (mp : Option Nat) (page : Nat)
    (r : PageResp α) (h : wfResp r = true) :
    stepKind pp mp page r = some false ↔ ¬ stopsAt pp mp page r := by
  obtain ⟨b, hb⟩ := stepKind_some pp mp page r h
  cases b with
  | true =>
    rw [hb]
    have hst := (stepKind_true_iff pp mp page r h).mp hb
    simp [hst]
  | false =>
    rw [hb]
    simp only [Option.some.injEq, true_iff]
    intro hs
    have := (stepKind_true_iff pp mp page r h).mpr hs
    rw [hb] at this
    simp at this

theorem wardrobePages_ok_char {α : Type} (pp : Nat) (mp : Option Nat) :
    ∀ (rs : List (PageResp α)) (p : Nat) (out : List α),
      wardrobePages pp mp p rs = FetchResult.ok out →
      ∃ k, 1 ≤ k ∧ k ≤ rs.length ∧
        out = ((rs.take k).map PageResp.items).flatten ∧
        (∀ j r, j + 1 < k → nth rs j = some r → stepKind pp mp (p + j) r = some false) ∧
        (∀ r, nth rs (k - 1) = some r → stepKind pp mp (p + (k - 1)) r = some true) := by
  intro rs
  induction rs with
  | nil => intro p out h; simp [wardrobePages] at h
  | cons r rest ih =>
    intro p out h
    rw [wardrobePages] at h
    cases hs : stepKind pp mp p r with
    | none => rw [hs] at h; simp at h
    | some b =>
      rw [hs] at h
      cases b with
      | true =>
        simp only [Option.some.injEq] at h
        refine ⟨1, le_refl 1, by simp, ?_, ?_, ?_⟩
        · cases h
          simp
        · intro j r2 hj _; omega
        · intro r2 hr2
          simp [nth] at hr2
          subst hr2
          simpa using hs
      | false =>
        cases hrec : wardrobePages pp mp (p + 1) rest with
        | typeError => rw [hrec] at h; simp [FetchResult.prepend] at h
        | outOfPages => rw [hrec] at h; simp [FetchResult.prepend] at h
        | ok out2 =>
          rw [hrec] at h
          simp only [FetchResult.prepend, FetchResult.ok.injEq] at h
          obtain ⟨k0, hk1, hk2, hout, hcont, hstop⟩ := ih (p + 1) out2 hrec
          obtain ⟨k1, rfl⟩ : ∃ k1, k0 = k1 + 1 := ⟨k0 - 1, by omega⟩
          refine ⟨k1 + 2, by omega, by simp; omega, ?_, ?_, ?_⟩
          · subst h
            rw [hout]
            simp [List.take_cons]
          · intro j r2 hj hr2
            cases j with
            | zero =>
              simp [nth] at hr2
              subst hr2
              simpa using hs
            | succ j0 =>
              have := hcont j0 r2 (by omega) hr2
              have harith : p + (j0 + 1) = p + 1 + j0 := by omega
              rw [harith]
              exact this
          · intro r2 hr2
            have harith : k1 + 2 - 1 = k1 + 1 := by omega
            rw [harith] at hr2
            have := hstop r2 (by simpa using hr2)
            have harith2 : p + (k1 + 2 - 1) = p + 1 + (k1 + 1 - 1) := by omega
            rw [harith2]
            exact this

/-- C1: whenever `wardrobe_items_all` returns normally over well-formed
page responses, the result is the concatenation of the items of the fetched
pages in page order; the number of fetched pages never exceeds a supplied
positive `max_pages` cap; the last fetched page satisfies one of the three
stopping conditions (cap reached, reported total-page count reached or
exceeded, or — with no reported total-page count — an empty or short page),
and no earlier fetched page satisfies any of them. -/
theorem claim1_wardrobe_items_all :
    ∀ (α : Type) (pp : Nat) (mp : Option Nat) (rs : List (PageResp α)) (out : List α),
      (∀ r ∈ rs, wfResp r = true) →
      wardrobe_items_all pp mp rs = FetchResult.ok out →
      ∃ k, 1 ≤ k ∧ k ≤ rs.length ∧
        out = ((rs.take k).map PageResp.items).flatten ∧
        (∀ m, mp = some m → 1 ≤ m → k ≤ m) ∧
        (∀ r, nth rs (k - 1) = some r → stopsAt pp mp k r) ∧
        (∀ j r, j + 1 < k → nth rs j = some r → ¬ stopsAt pp mp (j + 1) r) := by
  intro α pp mp rs out hwf h
  obtain ⟨k, hk1, hk2, hout, hcont, hstop⟩ := wardrobePages_ok_char pp mp rs 1 out h
  have hwf_nth : ∀ j r, nth rs j = some r → wfResp r = true := fun j r hj =>
    hwf r (nth_mem rs j r hj)
  refine ⟨k, hk1, hk2, hout, ?_, ?_, ?_⟩
  · intro m hm hm1
    by_cases hk : k = 1
    · omega
    · obtain ⟨r2, hr2⟩ := nth_lt rs (k - 2) (by omega)
      have hfalse := hcont (k - 2) r2 (by omega) hr2
      have hnot := (stepKind_false_iff pp mp (1 + (k - 2)) r2 (hwf_nth _ _ hr2)).mp hfalse
      by_contra hmk
      exact hnot (Or.inl ⟨m, hm, by omega⟩)
  · intro r hr
    have := hstop r hr
    have hiff := (stepKind_true_iff pp mp (1 + (k - 1)) r (hwf_nth _ _ hr)).mp this
    have harith : 1 + (k - 1) = k := by omega
    rw [harith] at hiff
    exact hiff
  · intro j r hj hr
    have := hcont j r hj hr
    have hiff := (stepKind_false_iff pp mp (1 + j) r (hwf_nth _ _ hr)).mp this
    have harith : 1 + j = j + 1 := by omega
    rw [harith] at hiff
    exact hiff

/-- Witness for C1: a single full page whose pagination reports
`current_page = total_pages = 1`; the run returns its two items and page 1
satisfies the total-pages stopping condition. -/
theorem claim1_witness :
    ∃ k, 1 ≤ k ∧ k ≤ ([(⟨[1, 2], some (some 1, some 1)⟩ : PageResp Nat)] : List (PageResp Nat)).length ∧
      [1, 2] = ((([(⟨[1, 2], some (some 1, some 1)⟩ : PageResp Nat)]).take k).map PageResp.items).flatten ∧
      (∀ m, (none : Option Nat) = some m → 1 ≤ m → k ≤ m) ∧
      (∀ r, nth [(⟨[1, 2], some (some 1, some 1)⟩ : PageResp Nat)] (k - 1) = some r →
        stopsAt 2 none k r) ∧
      (∀ j r, j + 1 < k → nth [(⟨[1, 2], some (some 1, some 1)⟩ : PageResp Nat)] j = some r →
        ¬ stopsAt 2 none (j + 1) r) :=
  claim1_wardrobe_items_all Nat 2 none [⟨[1, 2], some (some 1, some 1)⟩] [1, 2]
    (by decide) rfl

end VR

namespace VR

/-! ## C4 : photo URL priority order (corrected) -/

theorem lookupFmt_mem (key : String) :
    ∀ (f : List (String × Option (Option String))) (v : Option (Option String)),
      lookupFmt key f = some v → (key, v) ∈ f := by
  intro f
  induction f with
  | nil => intro v h; simp [lookupFmt] at h
  | cons kv rest ih =>
    obtain ⟨k0, v0⟩ := kv
    intro v h
    by_cases hk : k0 = key
    · subst hk
      simp [lookupFmt] at h
      simp [h]
    · simp [lookupFmt, hk] at h
      exact List.mem_cons_of_mem _ (ih v h)

theorem fmtLoop_clean (f : List (String × Option (Option String)))
    (hclean : f.all (fun kv => match kv.2 with | some uf => cleanOpt uf | none => true) = true) :
    ∀ keys : List String, fmtLoop f keys none = specFmtPick f keys := by
  intro keys
  induction keys with
  | nil => rfl
  | cons key rest ih =>
    rw [fmtLoop, specFmtPick]
    cases hl : lookupFmt key f with
    | none => exact ih
    | some v =>
      cases v with
      | none => exact ih
      | some uf =>
        cases uf with
        | none => simpa [isTruthyS, truthyS] using ih
        | some s =>
          have hmem := lookupFmt_mem key f (some (some s)) hl
          have hcl := List.all_eq_true.mp hclean _ hmem
          simp only [cleanOpt] at hcl
          have hs : ¬ s = "" := by simpa using hcl
          simp [isTruthyS, truthyS, hs]

theorem truthyS_of_clean (a : Option String) (h : cleanOpt a = true) : truthyS a = a := by
  cases a with
  | none => rfl
  | some s =>
    simp only [cleanOpt] at h
    have : ¬ s = "" := by simpa using h
    simp [truthyS, this]

theorem pyOrS_of_clean (a b : Option String) (h : cleanOpt a = true) :
    pyOrS a b = optOr (truthyS a) b := by
  cases a with
  | none => rfl
  | some s =>
    simp only [cleanOpt] at h
    have : ¬ s = "" := by simpa using h
    simp [pyOrS, truthyS, optOr, this]

theorem optOr_assoc (a b c : Option String) :
    optOr (optOr a b) c = optOr a (optOr b c) := by
  cases a <;> simp [optOr]

/-- Counterexample to C4: a photo entry whose only URL field is the
top-level `original_url`.  The claimed priority order resolves it, and the
browser-reposter path does resolve it, but the cli `_extract_url` path does
not try `original_url` at all and yields no URL — so the priority order
does not hold on every code path. -/
theorem claim4_counterexample :
    cli_extract_url ⟨none, none, none, some "X.jpg", none, none⟩ = none ∧
    extractOnePhoto ⟨none, none, none, some "X.jpg", none, none⟩ = some "X.jpg" ∧
    specPhotoPriority ⟨none, none, none, some "X.jpg", none, none⟩ = some "X.jpg" ∧
    cli_extract_url ⟨none, none, none, some "X.jpg", none, none⟩ ≠
      specPhotoPriority ⟨none, none, none, some "X.jpg", none, none⟩ := by
  refine ⟨rfl, rfl, rfl, by decide⟩

/-- C4 (amended): the claimed priority order — `full_size_url`, `url`,
`image_url`, `original_url`, `original`, then the first of the
`xxl, xl, l, m, original` sub-formats — is exactly what the
browser-reposter's per-entry resolution computes on entries without
empty-string URL values, and the claimed example resolves to `L.jpg` both
there and on the cli path; but the cli `_extract_url` path only tries
`full_size_url`, `url`, `image_url` and then the first insertion-ordered
formats entry with a truthy `url`, so the priority order does not hold on
that path. -/
theorem claim4_amended :
    (∀ p : PhotoEntry, cleanPhoto p = true → extractOnePhoto p = specPhotoPriority p) ∧
    extract_photo_urls
      ⟨some [⟨none, none, none, none, none,
        some [("l", some (some "L.jpg")), ("original", some (some "O.jpg"))]⟩], none⟩ =
      ["L.jpg"] ∧
    cli_extract_url
      ⟨none, none, none, none, none,
        some [("l", some (some "L.jpg")), ("original", some (some "O.jpg"))]⟩ =
      some "L.jpg" := by
  refine ⟨?_, rfl, rfl⟩
  intro p hp
  obtain ⟨fsu, u, iu, ou, og, fmts⟩ := p
  simp only [cleanPhoto, Bool.and_eq_true] at hp
  obtain ⟨⟨⟨⟨⟨h1, h2⟩, h3⟩, h4⟩, h5⟩, h6⟩ := hp
  cases fsu with
  | some s =>
    have hs : ¬ s = "" := by simpa [cleanOpt] using h1
    simp [extractOnePhoto, specPhotoPriority, topUrlChain, pyOrS, truthyS, optOr,
      isTruthyS, hs]
  | none =>
  cases u with
  | some s =>
    have hs : ¬ s = "" := by simpa [cleanOpt] using h2
    simp [extractOnePhoto, specPhotoPriority, topUrlChain, pyOrS, truthyS, optOr,
      isTruthyS, hs]
  | none =>
  cases iu with
  | some s =>
    have hs : ¬ s = "" := by simpa [cleanOpt] using h3
    simp [extractOnePhoto, specPhotoPriority, topUrlChain, pyOrS, truthyS, optOr,
      isTruthyS, hs]
  | none =>
  cases ou with
  | some s =>
    have hs : ¬ s = "" := by simpa [cleanOpt] using h4
    simp [extractOnePhoto, specPhotoPriority, topUrlChain, pyOrS, truthyS, optOr,
      isTruthyS, hs]
  | none =>
  cases og with
  | some s =>
    have hs : ¬ s = "" := by simpa [cleanOpt] using h5
    simp [extractOnePhoto, specPhotoPriority, topUrlChain, pyOrS, truthyS, optOr,
      isTruthyS, hs]
  | none =>
  cases fmts with
  | some f =>
    have hf : f.all (fun kv => match kv.2 with | some uf => cleanOpt uf | none => true) = true := by
      simpa using h6
    simpa [extractOnePhoto, specPhotoPriority, topUrlChain, pyOrS, truthyS, optOr,
      isTruthyS] using fmtLoop_clean f hf fmtKeys
  | none => rfl

end VR

namespace VR

/-- Witness for C4 (amended): the clean example entry from the claim, on
which the browser-reposter resolution provably follows the priority order. -/
theorem claim4_witness :
    extractOnePhoto
      ⟨none, none, none, none, none,
        some [("l", some (some "L.jpg")), ("original", some (some "O.jpg"))]⟩ =
    specPhotoPriority
      ⟨none, none, none, none, none,
        some [("l", some (some "L.jpg")), ("original", some (some "O.jpg"))]⟩ :=
  claim4_amended.1
    ⟨none, none, none, none, none,
      some [("l", some (some "L.jpg")), ("original", some (some "O.jpg"))]⟩
    (by decide)

/-! ## C5 : price normalization (corrected) -/

/-- Counterexample to C5: the claim asserts that string amounts get a comma
decimal separator replaced before float conversion on the cited
normalization sites, so that `"12,50"` yields 12.5; but the cli payload
normalization (cli.py lines 269-279) converts a dict amount with plain
`float(...)`, so `"12,50"` yields an absent price there, not 12.5. -/
theorem claim5_counterexample :
    cliPriceVal ⟨none, some (.pdict (some (.str "12,50")) none)⟩ ≠
      some (.num ((25 : ℚ) / 2)) ∧
    cliPriceVal ⟨none, some (.pdict (some (.str "12,50")) none)⟩ = none := by
  constructor
  · decide
  · decide

/-- C5 (amended): in `collect_item_data` a string amount is normalized by
comma-to-period replacement followed by float conversion, so `"12,50"`
yields 12.5, and any string that is not numeric after the replacement
yields an absent price (never zero); in the cli payload normalization a
string dict amount goes through plain `float(...)` with no comma
replacement, so `"12,50"` yields an absent price there, and any string that
`float` rejects yields an absent price (never zero). -/
theorem claim5_amended :
    collectPrice ⟨none, some (.pdict (some (.str "12,50")) none)⟩ = some ((25 : ℚ) / 2) ∧
    (∀ (src : PriceSrc) (s : String),
      collectAmount src = some (.str s) →
      pyFloat (replaceCommaDot s) = none →
      collectPrice src = none) ∧
    cliPriceVal ⟨none, some (.pdict (some (.str "12,50")) none)⟩ = none ∧
    (∀ (s : String) (c : Option String),
      pyFloat s = none →
      cliPriceVal ⟨none, some (.pdict (some (.str s)) c)⟩ = none) := by
  refine ⟨by with_unfolding_all decide, ?_, by decide, ?_⟩
  · intro src s hs hf
    unfold collectPrice
    rw [hs]
    simp only
    exact hf
  · intro s c hf
    unfold cliPriceVal
    simp [hf]

/-- Witness for C5 (amended): the non-numeric amount `"abc"` is absent
(never zero) after normalization in `collect_item_data`. -/
theorem claim5_witness :
    collectPrice ⟨some (PVal.str "abc"), none⟩ = none :=
  claim5_amended.2.1 ⟨some (PVal.str "abc"), none⟩ "abc" rfl (by decide)

end VR

namespace VR

/-! ## C6 : creation-date resolution -/

theorem dropWhile_of_no_ws :
    ∀ l : List Char, (∀ c ∈ l, wsPy c = false) → l.dropWhile wsPy = l := by
  intro l h
  cases l with
  | nil => rfl
  | cons c cs =>
    have := h c (List.mem_cons_self c cs)
    simp [List.dropWhile, this]

theorem pyStripL_of_no_ws (l : List Char) (h : ∀ c ∈ l, wsPy c = false) :
    pyStripL l = l := by
  unfold pyStripL
  rw [dropWhile_of_no_ws l h]
  rw [dropWhile_of_no_ws l.reverse (fun c hc => h c (List.mem_reverse.mp hc))]
  exact List.reverse_reverse l

theorem getLast_append_offset (l : List Char) :
    (l ++ ['+', '0', '0', ':', '0', '0']).getLast? = some '0' := by
  induction l with
  | nil => rfl
  | cons c cs ih =>
    cases hcs : cs ++ ['+', '0', '0', ':', '0', '0'] with
    | nil => exact absurd hcs (by simp)
    | cons d ds =>
      rw [List.cons_append, hcs, List.getLast?_cons_cons, ← hcs, ih]

theorem replaceZ_of_single (l : List Char) :
    l.count 'Z' = 1 → l.getLast? = some 'Z' →
    pyReplaceAllZ l = l.dropLast ++ ['+', '0', '0', ':', '0', '0'] := by
  induction l with
  | nil => intro _ h; simp at h
  | cons c cs ih =>
    intro hcount hlast
    cases cs with
    | nil =>
      simp at hlast
      subst hlast
      rfl
    | cons d ds =>
      rw [List.getLast?_cons_cons] at hlast
      have hmem : 'Z' ∈ d :: ds := List.mem_of_mem_getLast? hlast
      have hcpos : 0 < (d :: ds).count 'Z' := List.count_pos_iff.mpr hmem
      rw [List.count_cons] at hcount
      have hcz : ¬ c = 'Z' := by
        intro hc
        subst hc
        simp at hcount
        omega
      have hcount2 : (d :: ds).count 'Z' = 1 := by
        by_cases hcz2 : 'Z' = c
        · exact absurd hcz2.symm hcz
        · simp [hcz2] at hcount
          omega
      have := ih hcount2 hlast
      rw [pyReplaceAllZ]
      simp only [hcz, if_false]
      rw [this]
      rfl

/-- C6: the numeric timestamp 1700000000 is at most the magnitude threshold
and is read as seconds; 1700000000000 is above it and is read as
milliseconds; both resolve to the same UTC instant.  For every whitespace-free
string ending in `Z` whose only `Z` is that final character (true of every
ISO-8601 string ending in `Z`), creation-date resolution returns the same
result as for the string with the trailing `Z` replaced by `+00:00`. -/
theorem claim6_created_at :
    ((1700000000 : ℚ) ≤ 10000000000 ∧ (10000000000 : ℚ) < 1700000000000 ∧
     ∀ (c n : Option String) (ps : Option (List (Option ℚ))),
       parse_created_at ⟨some 1700000000, c, n, ps⟩ = some 1700000000 ∧
       parse_created_at ⟨some 1700000000000, c, n, ps⟩ = some 1700000000) ∧
    (∀ (s : String) (n : Option String) (ps : Option (List (Option ℚ))),
      s.toList.getLast? = some 'Z' →
      s.toList.count 'Z' = 1 →
      (∀ c ∈ s.toList, wsPy c = false) →
      parse_created_at ⟨none, some s, n, ps⟩ =
        parse_created_at
          ⟨none, some (String.mk (s.toList.dropLast ++ ['+', '0', '0', ':', '0', '0'])), n, ps⟩) := by
  constructor
  · refine ⟨by norm_num, by norm_num, ?_⟩
    intro c n ps
    have h1 : ¬ ((10000000000 : ℚ) < 1700000000) := by norm_num
    have h2 : (10000000000 : ℚ) < 1700000000000 := by norm_num
    have h3 : (1700000000000 : ℚ) / 1000 = 1700000000 := by norm_num
    have h4 : fromtimestampUtc 1700000000 = some 1700000000 := by
      unfold fromtimestampUtc minFts maxFts
      rw [if_pos]
      constructor <;> norm_num
    constructor
    · simp [parse_created_at, tsStep, h1, h4]
    · simp [parse_created_at, tsStep, h2, h3, h4]
  · intro s n ps hlast hcount hws
    have hsl : s.toList ≠ [] := by
      intro hh
      rw [hh] at hlast
      simp at hlast
    have hne : ¬ s = "" := by
      intro hh
      subst hh
      exact hsl rfl
    have hiso : isoStep ⟨none, some s, n, ps⟩ =
        isoStep ⟨none, some (String.mk (s.toList.dropLast ++ ['+', '0', '0', ':', '0', '0'])), n, ps⟩ := by
      have hlhs_or : pyOrStr (some s) n = some s := by simp [pyOrStr, hne]
      have hs2list : (String.mk (s.toList.dropLast ++ ['+', '0', '0', ':', '0', '0'])).toList =
          s.toList.dropLast ++ ['+', '0', '0', ':', '0', '0'] := rfl
      have hs2ne : ¬ String.mk (s.toList.dropLast ++ ['+', '0', '0', ':', '0', '0']) = "" := by
        intro hh
        have : (String.mk (s.toList.dropLast ++ ['+', '0', '0', ':', '0', '0'])).toList = [] := by
          rw [hh]
          rfl
        rw [hs2list] at this
        simp at this
      have hrhs_or : pyOrStr (some (String.mk (s.toList.dropLast ++ ['+', '0', '0', ':', '0', '0']))) n =
          some (String.mk (s.toList.dropLast ++ ['+', '0', '0', ':', '0', '0'])) := by
        simp [pyOrStr, hs2ne]
        exact fun hh => absurd hh hs2ne
      have hstrip1 : pyStripL s.toList = s.toList := pyStripL_of_no_ws s.toList hws
      have hws2 : ∀ c ∈ s.toList.dropLast ++ ['+', '0', '0', ':', '0', '0'], wsPy c = false := by
        intro c hc
        rcases List.mem_append.mp hc with hc1 | hc2
        · exact hws c ((List.dropLast_sublist s.toList).mem hc1)
        · simp only [List.mem_cons, List.not_mem_nil, or_false] at hc2
          rcases hc2 with rfl | rfl | rfl | rfl | rfl | rfl <;> decide
      have hstrip2 : pyStripL (s.toList.dropLast ++ ['+', '0', '0', ':', '0', '0']) =
          s.toList.dropLast ++ ['+', '0', '0', ':', '0', '0'] := pyStripL_of_no_ws _ hws2
      have hrepl := replaceZ_of_single s.toList hcount hlast
      have hlast2 : (s.toList.dropLast ++ ['+', '0', '0', ':', '0', '0']).getLast? = some '0' :=
        getLast_append_offset _
      unfold isoStep
      rw [hlhs_or, hrhs_or]
      simp only [hne, hs2ne, if_false, hs2list]
      rw [hstrip1, hstrip2, hlast, hlast2]
      simp only [Option.some.injEq, reduceCtorEq, if_true, if_false]
      rw [hrepl]
      rw [if_neg (show ¬ ('0' : Char) = 'Z' by decide)]
    simp only [parse_created_at, tsStep]
    rw [hiso]
    rfl

/-- Witness for C6 at the ISO string `2024-01-01T10:00:00Z`: resolution
agrees with the `+00:00` spelling. -/
theorem claim6_witness :
    parse_created_at ⟨none, some "2024-01-01T10:00:00Z", none, none⟩ =
      parse_created_at
        ⟨none,
         some (String.mk ("2024-01-01T10:00:00Z".toList.dropLast ++ ['+', '0', '0', ':', '0', '0'])),
         none, none⟩ :=
  claim6_created_at.2 "2024-01-01T10:00:00Z" none none (by decide) (by decide) (by decide)

end VR

namespace VR

/-! ## C7 : sorting oldest-first with unknown dates last -/

instance : IsTotal ItemRec itemLe :=
  ⟨fun a b => by
    unfold itemLe keyLeB
    rcases Nat.lt_trichotomy (sortKey a).1 (sortKey b).1 with h | h | h
    · left; simp [h]
    · rcases le_total (sortKey a).2 (sortKey b).2 with h2 | h2
      · left; simp [h, h2]
      · right; simp [h.symm, h2]
    · right; simp [h]⟩

instance : IsTrans ItemRec itemLe :=
  ⟨fun a b c hab hbc => by
    unfold itemLe keyLeB at *
    simp only [Bool.or_eq_true, Bool.and_eq_true, decide_eq_true_eq] at *
    rcases hab with h1 | ⟨h1, h2⟩ <;> rcases hbc with h3 | ⟨h3, h4⟩
    · exact Or.inl (h1.trans h3)
    · exact Or.inl (by omega)
    · exact Or.inl (by omega)
    · exact Or.inr ⟨by omega, le_trans h2 h4⟩⟩

theorem itemLe_known_iff (a b : ItemRec) (da db : ℚ)
    (ha : parse_created_at a = some da) (hb : parse_created_at b = some db) :
    itemLe a b ↔ da ≤ db := by
  unfold itemLe keyLeB sortKey
  rw [ha, hb]
  simp

theorem itemLe_unknown_left (a b : ItemRec) (ha : parse_created_at a = none) :
    itemLe a b ↔ parse_created_at b = none := by
  unfold itemLe keyLeB sortKey
  rw [ha]
  cases hb : parse_created_at b <;> simp [hb]

theorem isNone_false_of_ne (b : ItemRec) (h : ¬ parse_created_at b = none) :
    (parse_created_at b).isNone = false := by
  cases hb : parse_created_at b with
  | none => exact absurd hb h
  | some v => rfl

theorem filter_orderedInsert_unknown (b : ItemRec) (hb : parse_created_at b = none) :
    ∀ l : List ItemRec,
      (List.orderedInsert itemLe b l).filter (fun it => (parse_created_at it).isNone) =
        b :: l.filter (fun it => (parse_created_at it).isNone) := by
  intro l
  induction l with
  | nil => simp [hb]
  | cons y ys ih =>
    by_cases h : itemLe b y
    · have hy : parse_created_at y = none := (itemLe_unknown_left b y hb).mp h
      simp [List.orderedInsert, h, hb, hy]
    · have hy : ¬ parse_created_at y = none := fun hh => h ((itemLe_unknown_left b y hb).mpr hh)
      have hy2 := isNone_false_of_ne y hy
      simp [List.orderedInsert, h, hy2, ih]

theorem filter_orderedInsert_known (b : ItemRec) (db : ℚ)
    (hb : parse_created_at b = some db) :
    ∀ l : List ItemRec,
      (List.orderedInsert itemLe b l).filter (fun it => (parse_created_at it).isNone) =
        l.filter (fun it => (parse_created_at it).isNone) := by
  intro l
  induction l with
  | nil => simp [hb]
  | cons y ys ih =>
    by_cases h : itemLe b y
    · simp [List.orderedInsert, h, hb]
    · simp only [List.orderedInsert, h, if_false]
      cases hy : (parse_created_at y).isNone <;> simp [List.filter, hy, ih]

theorem filter_unknown_pySortItems :
    ∀ its : List ItemRec,
      (pySortItems its).filter (fun it => (parse_created_at it).isNone) =
        its.filter (fun it => (parse_created_at it).isNone) := by
  intro its
  induction its with
  | nil => rfl
  | cons b l ih =>
    unfold pySortItems at ih
    show (List.orderedInsert itemLe b (List.insertionSort itemLe l)).filter _ = _
    cases hb : parse_created_at b with
    | none =>
      rw [filter_orderedInsert_unknown b hb _]
      rw [ih]
      simp [List.filter, hb]
    | some db =>
      rw [filter_orderedInsert_known b db hb _]
      rw [ih]
      simp [List.filter, hb]

/-- C7: Python `list.sort` with `_sort_key` (a stable sort by the key
`(0, date)` for known dates and `(1, datetime.max)` for unknown ones): the
result is a permutation of the input in which any item preceding another
either has an unknown date only if the other does too, and known dates
appear oldest first; the unknown-date items keep their relative input
order; and the claimed example `[unknown, 2024-01-01, 2023-06-01]` sorts to
`[2023-06-01, 2024-01-01, unknown]`. -/
theorem claim7_sort :
    (∀ its : List ItemRec,
      (pySortItems its).Perm its ∧
      (pySortItems its).Pairwise (fun a b =>
        (parse_created_at a = none → parse_created_at b = none) ∧
        (∀ da db, parse_created_at a = some da → parse_created_at b = some db → da ≤ db)) ∧
      (pySortItems its).filter (fun it => (parse_created_at it).isNone) =
        its.filter (fun it => (parse_created_at it).isNone)) ∧
    pySortItems
      [⟨none, none, none, none⟩, ⟨none, some "2024-01-01", none, none⟩,
       ⟨none, some "2023-06-01", none, none⟩] =
      [⟨none, some "2023-06-01", none, none⟩, ⟨none, some "2024-01-01", none, none⟩,
       ⟨none, none, none, none⟩] := by
  constructor
  · intro its
    refine ⟨List.perm_insertionSort itemLe its, ?_, filter_unknown_pySortItems its⟩
    have hsorted : (pySortItems its).Pairwise itemLe := List.sorted_insertionSort itemLe its
    exact hsorted.imp (fun {a b} hab =>
      ⟨fun ha => (itemLe_unknown_left a b ha).mp hab,
       fun da db hda hdb => (itemLe_known_iff a b da db hda hdb).mp hab⟩)
  · have hd24 : daysFromCivil 2024 1 1 = 19723 := by decide
    have hd23 : daysFromCivil 2023 6 1 = 19509 := by decide
    have pa : parse_created_at ⟨none, none, none, none⟩ = none := rfl
    have pb : parse_created_at ⟨none, some "2024-01-01", none, none⟩ =
        some ((daysFromCivil 2024 1 1 : ℚ) * 86400 - 0) := rfl
    have pc : parse_created_at ⟨none, some "2023-06-01", none, none⟩ =
        some ((daysFromCivil 2023 6 1 : ℚ) * 86400 - 0) := rfl
    have pb2 : parse_created_at ⟨none, some "2024-01-01", none, none⟩ =
        some (1704067200 : ℚ) := by
      rw [pb, hd24]
      norm_num
    have pc2 : parse_created_at ⟨none, some "2023-06-01", none, none⟩ =
        some (1685577600 : ℚ) := by
      rw [pc, hd23]
      norm_num
    have hBC : ¬ itemLe ⟨none, some "2024-01-01", none, none⟩ ⟨none, some "2023-06-01", none, none⟩ := by
      rw [itemLe_known_iff _ _ _ _ pb2 pc2]
      norm_num
    have hAC : ¬ itemLe ⟨none, none, none, none⟩ ⟨none, some "2023-06-01", none, none⟩ := by
      rw [itemLe_unknown_left _ _ pa]
      simp [pc2]
    have hAB : ¬ itemLe ⟨none, none, none, none⟩ ⟨none, some "2024-01-01", none, none⟩ := by
      rw [itemLe_unknown_left _ _ pa]
      simp [pb2]
    simp [pySortItems, List.insertionSort, List.orderedInsert, hBC, hAC, hAB]

end VR

namespace VR

/-! ## C8 : exit codes of the CLI run -/

/-- C8: the run exits 0 on success or early exit (including an empty
listing fetch), exits 1 exactly when identity resolution is unresolved
(falsy user id) or the run reaches the write gate and the CSRF token cannot
be obtained there, and exits 2 exactly when the run reaches the final
item-creation call and that call fails. -/
theorem claim8_exit_codes :
    ∀ (α : Type) (env : RunEnv α),
      (mainExit env = 1 ↔
        (idUnresolved env ∨ (reachesWriteGate env ∧ truthyS env.csrf = none))) ∧
      (mainExit env = 2 ↔ (reachesCreate env ∧ env.createOk = false)) ∧
      (mainExit env = 0 ↔
        (¬ (idUnresolved env ∨ (reachesWriteGate env ∧ truthyS env.csrf = none)) ∧
         ¬ (reachesCreate env ∧ env.createOk = false))) := by
  intro α env
  obtain ⟨uid, items, sel, conf, bf, bok, csrf, cok⟩ := env
  cases uid with
  | none => simp [mainExit, idUnresolved, reachesWriteGate, reachesCreate]
  | some u =>
    by_cases hu : u = 0
    · subst hu
      simp [mainExit, idUnresolved, reachesWriteGate, reachesCreate]
    · cases items with
      | nil => simp [mainExit, idUnresolved, reachesWriteGate, reachesCreate, hu]
      | cons x xs =>
        by_cases hs : pyStrip sel = ""
        · simp [mainExit, idUnresolved, reachesWriteGate, reachesCreate, hu, hs]
        · cases hidx : pyIntOf (pyStrip sel) with
          | none =>
            simp [mainExit, idUnresolved, reachesWriteGate, reachesCreate, hu, hs, hidx]
          | some idx =>
            by_cases hr : 1 ≤ idx ∧ idx ≤ ((x :: xs).length : Int)
            · have hr1 : 1 ≤ idx := hr.1
              have hr2 : idx ≤ (xs.length : Int) + 1 := by
                have := hr.2
                simp only [List.length_cons] at this
                push_cast at this
                omega
              cases conf with
              | false =>
                simp [mainExit, idUnresolved, reachesWriteGate, reachesCreate,
                  hu, hs, hidx, hr1, hr2]
              | true =>
                cases hb : bf && bok with
                | true =>
                  simp [mainExit, idUnresolved, reachesWriteGate, reachesCreate,
                    hu, hs, hidx, hr1, hr2, hb]
                | false =>
                  cases hc : truthyS csrf with
                  | none =>
                    simp [mainExit, idUnresolved, reachesWriteGate, reachesCreate,
                      hu, hs, hidx, hr1, hr2, hb, hc]
                  | some tok =>
                    cases cok with
                    | false =>
                      simp [mainExit, idUnresolved, reachesWriteGate, reachesCreate,
                        hu, hs, hidx, hr1, hr2, hb, hc]
                    | true =>
                      simp [mainExit, idUnresolved, reachesWriteGate, reachesCreate,
                        hu, hs, hidx, hr1, hr2, hb, hc]
            · have hrn : ¬ (1 ≤ idx ∧ idx ≤ (xs.length : Int) + 1) := by
                simp only [List.length_cons] at hr
                push_cast at hr
                exact_mod_cast hr
              simp [mainExit, idUnresolved, reachesWriteGate, reachesCreate,
                hu, hs, hidx, hrn]

end VR

namespace VR

/-- Witness for C7 at a concrete single-item list. -/
theorem claim7_witness :
    (pySortItems [⟨none, none, none, none⟩]).Perm [⟨none, none, none, none⟩] :=
  (claim7_sort.1 [⟨none, none, none, none⟩]).1

/-- Witness for C8 at a concrete run with unresolved identity: exit code 1. -/
theorem claim8_witness :
    mainExit (α := Unit) ⟨none, [], "", false, false, false, none, false⟩ = 1 :=
  (claim8_exit_codes Unit ⟨none, [], "", false, false, false, none, false⟩).1.mpr
    (Or.inl (Or.inl rfl))

end VR
